import Mathlib

/-!
A verification development for the per-guild playback engine of a chat-bot
music player (`guild_state.py`, `cogs/playback_cog.py`, `cogs/local_cog.py`).

The Python source is shallowly embedded: dataclasses become structures,
`asyncio.Queue` becomes a FIFO `List`, the cooperative playback loop becomes a
fuel-indexed functional interpreter that records user-visible events, and
external collaborators (the stream resolver, the channel registry) become an
explicit environment.  Fallible operations return `Option`.
-/

namespace MusicBot

/-- Embeds the `ffmpeg_options` dict (`guild_state.py`, `cogs/playback_cog.py`):
only the keys `before_options` and `options` are ever used; a missing key is
`none`. -/
structure FfmpegOpts where
  before_options : Option String := none
  options : Option String := none
deriving Repr, DecidableEq

/-- Embeds the `Song` dataclass of `utils.py`.  `requester` (a chat-platform
member object) is modelled as an opaque identifier. -/
structure Song where
  title : String
  source_url : String := ""
  stream_url : Option String := none
  requester : Option String := none
  is_tts : Bool := false
  is_local : Bool := false
  ffmpeg_options : Option FfmpegOpts := none
deriving Repr, DecidableEq

/-- Embeds `Song.__str__` of `utils.py`: markdown link when `source_url` is nonempty,
bold title otherwise. -/
def Song.display (s : Song) : String :=
  if s.source_url ≠ "" then "[" ++ s.title ++ "](" ++ s.source_url ++ ")"
  else "**" ++ s.title ++ "**"

/-- A created asyncio task handle: an identity plus whether it has finished
(`Task.done()`). -/
structure PyTask where
  id : Nat
  done : Bool
deriving Repr, DecidableEq

/-- The voice connection handle: `is_connected` / `is_playing` flags of
`discord.VoiceClient` as far as the embedded code inspects them. -/
structure VoiceClient where
  connected : Bool
  playing : Bool
deriving Repr, DecidableEq

/-- Embeds the mutable fields of `GuildState` (`guild_state.py`).  The
`asyncio.Queue` is modelled as a FIFO list (front = next element returned by
`queue.get()`).  `suppress_next_announcement` is the attribute assigned by
`PlaybackManager.seek`; `GuildState.__init__` itself never initialises it and
the playback loop never reads it. -/
structure GuildState where
  queue : List Song := []
  voice_client : Option VoiceClient := none
  current_song : Option Song := none
  playback_task : Option PyTask := none
  announcement_channel_id : Option Nat := none
  suppress_next_announcement : Bool := false
  prefetch_task : Option PyTask := none
deriving Repr, DecidableEq

/-- Negation of `not self.voice_client or not self.voice_client.is_connected()`:
a present, connected voice client. -/
def voiceConnected (st : GuildState) : Bool :=
  match st.voice_client with
  | some vc => vc.connected
  | none => false

/-- Embeds `self.voice_client.is_playing()` guarded by client presence, as the
command handlers test it. -/
def voicePlaying (st : GuildState) : Bool :=
  match st.voice_client with
  | some vc => vc.playing
  | none => false

/-- Embeds `await state.queue.put(song)`: FIFO append at the back. -/
def putSong (st : GuildState) (s : Song) : GuildState :=
  { st with queue := st.queue ++ [s] }

/-- A sequence of `queue.put` calls. -/
def putAll (st : GuildState) (songs : List Song) : GuildState :=
  songs.foldl putSong st

/-- Embeds `GuildState._song_finished_callback`: clears `current_song` and wakes the
loop (the wake-up is implicit in the sequential interpreter). -/
def songFinishedCallback (st : GuildState) : GuildState :=
  { st with current_song := none }

/-- Embeds `self.playback_task is None or self.playback_task.done()`: no live loop
task. -/
def taskFree (st : GuildState) : Bool :=
  match st.playback_task with
  | none => true
  | some t => t.done

/-- Embeds `GuildState.start_playback`: creates a fresh loop task and records the
announcement channel only when no task exists or the previous one is done.
`fresh` stands for the identity of the task `bot.loop.create_task` would
allocate. -/
def start_playback (st : GuildState) (channel_id : Nat) (fresh : Nat) : GuildState :=
  if taskFree st then
    { st with announcement_channel_id := some channel_id,
              playback_task := some ⟨fresh, false⟩ }
  else st

/-- Embeds `GuildState.stop`: drain the queue, cancel and clear the loop task,
disconnect and clear the voice client, clear the current song, cancel and
clear the prefetch task.  (Task cancellation itself has no further observable
effect in this model.) -/
def stop (st : GuildState) : GuildState :=
  { st with queue := [], playback_task := none, voice_client := none,
            current_song := none, prefetch_task := none }

/-- The external collaborators the loop calls: `resolver` embeds
`PlaybackManager.get_audio_source_url` (`none` = the call raises) and
`channelExists` embeds `guild.get_channel` returning a usable channel. -/
structure Env where
  resolver : String → Option String
  channelExists : Nat → Bool

/-- Python truthiness of `self.current_song.stream_url`, negated: the lazy
resolution in the loop fires when `stream_url` is `None` or the empty
string. -/
def streamMissing : Option String → Bool
  | none => true
  | some u => u = ""

/-- The `Resolving` phase of one loop iteration: return the song with a usable
`stream_url` (resolving lazily via the environment when it is missing),
or `none` when `get_audio_source_url` raises. -/
def resolveStream (env : Env) (s : Song) : Option (Song × String) :=
  if streamMissing s.stream_url then
    match env.resolver s.source_url with
    | some u => some ({ s with stream_url := some u }, u)
    | none => none
  else
    match s.stream_url with
    | some u => some (s, u)
    | none => none

/-- Python truthiness of `self.announcement_channel_id` combined with the
`guild.get_channel` lookup guarding every announcement. -/
def announceOk (env : Env) (st : GuildState) : Bool :=
  match st.announcement_channel_id with
  | some c => c ≠ 0 && env.channelExists c
  | none => false

/-- Embeds `GuildState._start_prefetch_next`: when no prefetch task is outstanding
and the head of the queue lacks a `stream_url` but has a `source_url`, a
background resolution task is created.  Only the task handle is modelled; the
asynchronous write it would eventually perform does not affect any claim
checked here. -/
def startPrefetchNext (st : GuildState) (fresh : Nat) : GuildState :=
  if (match st.prefetch_task with
      | some t => !t.done
      | none => false) then st
  else
    match st.queue.head? with
    | none => st
    | some next =>
      if streamMissing next.stream_url && next.source_url ≠ "" then
        { st with prefetch_task := some ⟨fresh, false⟩ }
      else st

/-- User-visible events recorded by the interpreter, in emission order. -/
inductive Ev where
  /-- Event for `voice_client.play(source)` on a stream address with encode options. -/
  | played (title : String) (stream : String) (opts : Option FfmpegOpts)
  /-- Message for now-playing, carrying `str(song)`. -/
  | nowPlaying (display : String)
  /-- Message for a skip after a play failure, carrying the title. -/
  | skipError (title : String)
deriving Repr, DecidableEq

/-- How a run of the playback loop ended. -/
inductive LoopExit where
  /-- Exit for `asyncio.TimeoutError` on the idle queue: `return await self.stop()`. -/
  | stoppedTimeout
  /-- voice client absent or disconnected after a pop: bare `return`. -/
  | voiceLost
  /-- interpreter fuel exhausted (the real loop would still be running). -/
  | fuelOut
deriving Repr, DecidableEq

/-- Fuel-indexed interpreter for `GuildState._playback_loop`.  One unit of
fuel is one iteration of the `while not self.bot.is_closed()` loop (the bot is
modelled as never closing; fuel exhaustion stands for a still-running loop).
An empty queue models the idle-timeout firing on `queue.get` — the only way
the real pop expires.  After a successful `voice_client.play`, the natural
completion of the track (the after-callback of the transport, marshalled back onto
the loop) is `songFinishedCallback`, after which the iteration has its
`next_song_event.wait()` returns.  Of the `try` body only the lazy resolution
(`get_audio_source_url`) is modelled as fallible, matching the error-handling
claims; the fuel value doubles as the identity of a freshly created prefetch
task. -/
def runLoop (env : Env) : GuildState → Nat → List Ev × GuildState × LoopExit
  | st, 0 => ([], st, .fuelOut)
  | st, n + 1 =>
    match st.queue with
    | [] => ([], stop st, .stoppedTimeout)
    | song :: rest =>
      let st1 : GuildState := { st with queue := rest, current_song := some song }
      if voiceConnected st1 then
        match resolveStream env song with
        | none =>
          let evs := if announceOk env st1 then [Ev.skipError song.title] else []
          let r := runLoop env (songFinishedCallback st1) n
          (evs ++ r.1, r.2)
        | some (song', url) =>
          let st2 : GuildState := { st1 with current_song := some song' }
          let evs := Ev.played song'.title url song'.ffmpeg_options ::
            (if announceOk env st2 then [Ev.nowPlaying song'.display] else [])
          let st3 := startPrefetchNext st2 n
          let r := runLoop env (songFinishedCallback st3) n
          (evs ++ r.1, r.2)
      else ([], st1, .voiceLost)

/-- The titles handed to `voice_client.play`, in order. -/
def playedTitles (evs : List Ev) : List String :=
  evs.filterMap fun e =>
    match e with
    | .played t _ _ => some t
    | _ => none

/-- Whether a song can reach the `Playing` phase under `env`: its stream
address is present or the resolver succeeds on its locator. -/
def playable (env : Env) (s : Song) : Bool :=
  (resolveStream env s).isSome

/-! ### The seek position parser

`parse_timestamp` inside `PlaybackManager.seek` calls the Python `int` and
`int(float(...))`.  CPython first transforms the string — every Unicode
decimal digit (category Nd) becomes its ASCII digit, every Unicode whitespace
character becomes a space, any other non-ASCII character makes the later
parse fail — and then parses an ASCII literal: optional sign and digit groups
with single underscores allowed between digits.  For the single-field path,
`float` produces the nearest IEEE-754 binary64 value (round to nearest, ties
to even; overflow gives infinity, on which `int` raises `OverflowError`), and
`int` truncates it toward zero.  That arithmetic is embedded exactly with
unbounded rationals below.  Inputs that `float` accepts but whose `int`
conversion raises (`inf`, `nan`, overflow) are folded into the failure case,
which the source maps to the same `-1` outcome through its `except`
clause. -/

/-- Python whitespace (`str.isspace`, `Py_UNICODE_ISSPACE`): the exact code
point set of the CPython Unicode tables. -/
def pyIsSpace (c : Char) : Bool :=
  let n := c.toNat
  (0x9 ≤ n && n ≤ 0xD) || (0x1C ≤ n && n ≤ 0x20) || n == 0x85 || n == 0xA0 ||
  n == 0x1680 || (0x2000 ≤ n && n ≤ 0x200A) || n == 0x2028 || n == 0x2029 ||
  n == 0x202F || n == 0x205F || n == 0x3000

/-- Python `str.strip()` on a character list: drop Unicode whitespace from
both ends. -/
def pyStripChars (cs : List Char) : List Char :=
  ((cs.dropWhile pyIsSpace).reverse.dropWhile pyIsSpace).reverse

/-- Python `str.strip()`. -/
def pyStrip (s : String) : String :=
  String.mk (pyStripChars s.data)

/-- Python `str.split(sep)` for a one-character separator: always at least
one (possibly empty) part, empty parts kept. -/
def splitChar (sep : Char) : List Char → List (List Char)
  | [] => [[]]
  | c :: cs =>
    if c = sep then [] :: splitChar sep cs
    else
      match splitChar sep cs with
      | [] => [[c]]
      | g :: gs => (c :: g) :: gs

/-- The tail of a digit group: digits with single underscores allowed between
two digits, collected with underscores removed. -/
def stripGroup : List Char → Option (List Char)
  | [] => some []
  | '_' :: c :: cs => if c.isDigit then (stripGroup cs).map (c :: ·) else none
  | c :: cs => if c.isDigit then (stripGroup cs).map (c :: ·) else none

/-- A nonempty digit group (must start with a digit). -/
def pyDigitGroup? : List Char → Option (List Char)
  | c :: cs => if c.isDigit then (stripGroup cs).map (c :: ·) else none
  | [] => none

/-- A possibly-empty digit group (used either side of a decimal point). -/
def pyDigitGroupOpt? (cs : List Char) : Option (List Char) :=
  match cs with
  | [] => some []
  | _ => pyDigitGroup? cs

/-- Value of a list of decimal digit characters. -/
def natOfDigits (ds : List Char) : Nat :=
  ds.foldl (fun a c => a * 10 + (c.toNat - '0'.toNat)) 0

/-- First code points of the Unicode Nd (decimal digit) ranges of the CPython
Unicode tables; each range holds exactly the digit values 0–9 in order. -/
def ndRangeStarts : List Nat :=
  [0x30, 0x660, 0x6F0, 0x7C0, 0x966, 0x9E6, 0xA66, 0xAE6, 0xB66, 0xBE6,
   0xC66, 0xCE6, 0xD66, 0xDE6, 0xE50, 0xED0, 0xF20, 0x1040, 0x1090, 0x17E0,
   0x1810, 0x1946, 0x19D0, 0x1A80, 0x1A90, 0x1B50, 0x1BB0, 0x1C40, 0x1C50,
   0xA620, 0xA8D0, 0xA900, 0xA9D0, 0xA9F0, 0xAA50, 0xABF0, 0xFF10, 0x104A0,
   0x10D30, 0x11066, 0x110F0, 0x11136, 0x111D0, 0x112F0, 0x11450, 0x114D0,
   0x11650, 0x116C0, 0x11730, 0x118E0, 0x11950, 0x11C50, 0x11D50, 0x11DA0,
   0x16A60, 0x16AC0, 0x16B50, 0x1D7CE, 0x1D7D8, 0x1D7E2, 0x1D7EC, 0x1D7F6,
   0x1E140, 0x1E2F0, 0x1E950, 0x1FBF0]

/-- Decimal digit value of a Unicode Nd character (`Py_UNICODE_TODECIMAL`). -/
def digitVal? (c : Char) : Option Nat :=
  (ndRangeStarts.find? (fun s => decide (s ≤ c.toNat) && decide (c.toNat ≤ s + 9))).map
    (fun s => c.toNat - s)

/-- CPython transform applied by both `int(str)` and `float(str)`
(`_PyUnicode_TransformDecimalAndSpaceToASCII`): Unicode whitespace becomes a
space, an Nd digit becomes its ASCII digit, other characters below 128 pass
through, and any other non-ASCII character makes the conversion fail (CPython
substitutes a character no numeric grammar accepts). -/
def toAsciiDecimal? : List Char → Option (List Char)
  | [] => some []
  | c :: cs =>
    if pyIsSpace c then (toAsciiDecimal? cs).map (' ' :: ·)
    else
      match digitVal? c with
      | some d => (toAsciiDecimal? cs).map (Char.ofNat (48 + d) :: ·)
      | none =>
        if c.toNat < 128 then (toAsciiDecimal? cs).map (c :: ·)
        else none

/-- After the transform the only whitespace left is the ASCII space, which
the numeric parsers skip at both ends. -/
def stripSpaces (cs : List Char) : List Char :=
  ((cs.dropWhile (fun c => c = ' ')).reverse.dropWhile (fun c => c = ' ')).reverse

/-- Python `int(str)`: transform to ASCII, strip, optional sign, one digit
group. -/
def pyInt? (cs : List Char) : Option Int := do
  let ascii ← toAsciiDecimal? cs
  match stripSpaces ascii with
  | '+' :: ds => (pyDigitGroup? ds).map (fun l => (natOfDigits l : Int))
  | '-' :: ds => (pyDigitGroup? ds).map (fun l => -(natOfDigits l : Int))
  | ds => (pyDigitGroup? ds).map (fun l => (natOfDigits l : Int))

/-- Unsigned body of a Python float literal
(`digits[.digits][e[±]digits]`): the mantissa digits as a number, the count
of mantissa digit characters, and the decimal exponent already shifted by
the fraction length — the literal denotes `M × 10^E`. -/
def parseFloatBody? (cs : List Char) : Option (Nat × Nat × Int) := do
  let mant := cs.takeWhile (fun c => c ≠ 'e' && c ≠ 'E')
  let erest := cs.dropWhile (fun c => c ≠ 'e' && c ≠ 'E')
  let exp : Int ← match erest with
    | [] => some (0 : Int)
    | _ :: ecs =>
      match ecs with
      | '+' :: ds => (pyDigitGroup? ds).map (fun l => (natOfDigits l : Int))
      | '-' :: ds => (pyDigitGroup? ds).map (fun l => -(natOfDigits l : Int))
      | ds => (pyDigitGroup? ds).map (fun l => (natOfDigits l : Int))
  let ip := mant.takeWhile (fun c => c ≠ '.')
  let frest := mant.dropWhile (fun c => c ≠ '.')
  let groups : List Char × List Char ← match frest with
    | [] => (pyDigitGroup? ip).map (fun l => (l, ([] : List Char)))
    | _ :: fcs => do
      let ipDs ← pyDigitGroupOpt? ip
      let frDs ← pyDigitGroupOpt? fcs
      if ipDs.isEmpty && frDs.isEmpty then none else some (ipDs, frDs)
  some (natOfDigits (groups.1 ++ groups.2), groups.1.length + groups.2.length,
    exp - groups.2.length)

/-- Whether `den · 2^b ≤ num` for an integer exponent `b`. -/
def lePow2 (den num : Nat) (b : Int) : Bool :=
  if 0 ≤ b then den * 2 ^ b.toNat ≤ num
  else den ≤ num * 2 ^ (-b).toNat

/-- Fuel-driven floor of the base-2 logarithm; exact whenever
`fuel > Nat.log2 n` (structural recursion so that the kernel can evaluate
it). -/
def log2F : Nat → Nat → Nat
  | 0, _ => 0
  | fuel + 1, n => if n ≤ 1 then 0 else log2F fuel (n / 2) + 1

/-- Round `num/den ∈ [2^b, 2^(b+1))` to 53 significant bits, nearest, ties
to even: the returned significand lies in `[2^52, 2^53]`. -/
def roundSig (num den : Nat) (b : Int) : Nat :=
  let s : Int := 52 - b
  let N := num * 2 ^ (max s 0).toNat
  let D := den * 2 ^ (max (-s) 0).toNat
  let q := N / D
  let r := N % D
  if 2 * r < D then q
  else if D < 2 * r then q + 1
  else if q % 2 = 0 then q else q + 1

/-- Magnitude of `int(float(.))` for the positive decimal `M × 10^E` written
with `d` mantissa digit characters: the correctly rounded binary64 value
truncated toward zero, or `none` when the rounding overflows to infinity and
`int` raises `OverflowError`.  The two guards are sound shortcuts: for
`E ≥ 309` the value exceeds the largest double, and for `E + d < 0` it is
below `1/10`, so the nearest double truncates to zero; within the remaining
range the fuel `4·d + 1400` strictly exceeds the bit length of both the
scaled numerator (`< 3.33·(d + 309)` bits) and denominator (`< 3.33·d`
bits), making both floor-logarithms exact. -/
def float64TruncMag? (M d : Nat) (E : Int) : Option Nat :=
  if M = 0 then some 0
  else if 309 ≤ E then none
  else if E + d < 0 then some 0
  else
    let num := M * 10 ^ (max E 0).toNat
    let den := 10 ^ (max (-E) 0).toNat
    let fuel := 4 * d + 1400
    let ln : Int := log2F fuel num
    let ld : Int := log2F fuel den
    let b0 := if lePow2 den num (ln - ld) then ln - ld else ln - ld - 1
    let q0 := roundSig num den b0
    let qb : Nat × Int := if q0 = 2 ^ 53 then (2 ^ 52, b0 + 1) else (q0, b0)
    if 1023 < qb.2 then none
    else if 52 ≤ qb.2 then some (qb.1 * 2 ^ (qb.2 - 52).toNat)
    else some (qb.1 / 2 ^ ((52 : Int) - qb.2).toNat)

/-- Python `int(float(str))` as applied to the single-field timestamp:
transform to ASCII, strip, optional sign, then the exactly rounded binary64
value truncated toward zero. -/
def pyFloatTruncInt? (cs : List Char) : Option Int := do
  let ascii ← toAsciiDecimal? cs
  match stripSpaces ascii with
  | '+' :: ds => do
    let mde ← parseFloatBody? ds
    (float64TruncMag? mde.1 mde.2.1 mde.2.2).map (fun m => (m : Int))
  | '-' :: ds => do
    let mde ← parseFloatBody? ds
    (float64TruncMag? mde.1 mde.2.1 mde.2.2).map (fun m => -(m : Int))
  | ds => do
    let mde ← parseFloatBody? ds
    (float64TruncMag? mde.1 mde.2.1 mde.2.2).map (fun m => (m : Int))

/-- Embeds `parse_timestamp` inside `PlaybackManager.seek`: strip, split on `":"`,
convert 1, 2 or 3 fields, clamp at zero; any conversion error or other field
count yields `-1`. -/
def parse_timestamp (ts : String) : Int :=
  match splitChar ':' (pyStripChars ts.data) with
  | [a] =>
    match pyFloatTruncInt? a with
    | some v => max 0 v
    | none => -1
  | [m, s] =>
    match pyInt? m, pyInt? s with
    | some mv, some sv => max 0 (mv * 60 + sv)
    | _, _ => -1
  | [h, m, s] =>
    match pyInt? h, pyInt? m, pyInt? s with
    | some hv, some mv, some sv => max 0 (hv * 3600 + mv * 60 + sv)
    | _, _, _ => -1
  | _ => -1

/-- The timestamp inputs the parser converts: one, two or three
colon-separated fields whose numeric conversions succeed. -/
def wellFormedTimestamp (ts : String) : Bool :=
  match splitChar ':' (pyStripChars ts.data) with
  | [a] => (pyFloatTruncInt? a).isSome
  | [m, s] => (pyInt? m).isSome && (pyInt? s).isSome
  | [h, m, s] => (pyInt? h).isSome && (pyInt? m).isSome && (pyInt? s).isSome
  | _ => false

/-! ### The seek command (`PlaybackManager.seek`) -/

/-- The `Song` that `seek` builds from the current one: same title, locator,
requester and origin flags; fresh encode options carrying the `-ss` start
offset (plus reconnect flags for remote tracks) while keeping the existing
`options` field (default `-vn`); and an unconditionally cleared
`stream_url`. -/
def seekSongOf (current : Song) (seconds : Int) : Song :=
  let options_part :=
    match current.ffmpeg_options with
    | some o => o.options.getD "-vn"
    | none => "-vn"
  let is_remote := !current.is_local && !current.is_tts
  let reconnect :=
    if is_remote then "-reconnect 1 -reconnect_streamed 1 -reconnect_delay_max 5" else ""
  let before_options := pyStrip ("-ss " ++ toString seconds ++ " " ++ reconnect)
  { title := current.title
    source_url := current.source_url
    stream_url := none
    requester := current.requester
    is_tts := current.is_tts
    is_local := current.is_local
    ffmpeg_options := some { before_options := some before_options, options := some options_part } }

/-- The user-facing outcome of the seek command. -/
inductive SeekOut where
  /-- Message "Nothing is playing to seek." -/
  | notPlaying
  /-- Message "Invalid time format. Use seconds or MM:SS or HH:MM:SS." -/
  | invalidFormat
  /-- Message "Seeking to Ns" (player restarted). -/
  | seeking (seconds : Int)
  /-- Message "Queued seek to Ns for the current track." (no active player). -/
  | queuedSeek (seconds : Int)
deriving Repr, DecidableEq

/-- Embeds `PlaybackManager.seek`: guard on a connected voice client and a current
song; parse the position; on success insert the seek clone at the *front* of
the queue (`queue._queue.appendleft`), and when the player is active set the
`suppress_next_announcement` attribute and stop the player (whose stop
after-callback is composed separately as `songFinishedCallback`). -/
def seek (st : GuildState) (position : String) : GuildState × SeekOut :=
  if !voiceConnected st || st.current_song.isNone then (st, .notPlaying)
  else
    match st.current_song with
    | none => (st, .notPlaying)
    | some current =>
      let seconds := parse_timestamp position
      if seconds < 0 then (st, .invalidFormat)
      else
        let st1 : GuildState := { st with queue := seekSongOf current seconds :: st.queue }
        if voicePlaying st then
          ({ st1 with suppress_next_announcement := true }, .seeking seconds)
        else (st1, .queuedSeek seconds)

/-! ### The clear command (`PlaybackManager.clear`) -/

/-- Embeds `PlaybackManager.clear`: on an empty queue report only; otherwise drain
the queue with `get_nowait` and send the fixed confirmation message.  Returns
the new state and the message sent. -/
def clear (st : GuildState) : GuildState × String :=
  if st.queue.isEmpty then (st, "The queue is already empty.")
  else ({ st with queue := [] }, "**:wastebasket: Cleared the queue.**")

/-! ### Local path resolution (`LocalMusic._resolve_local_path`)

POSIX paths are embedded as follows: an absolute, already-normalised
directory (which is what `os.path.abspath` yields for `config.MUSIC_DIR`) is
a list of components; `pathData` renders it to the character sequence of its
path string.  `os.path.abspath(os.path.join(dir, name))` for a slash-free
`name` is `resolveJoin`: it removes `""` and `"."` and resolves `".."` to the
parent, and otherwise appends one component.  `str.startswith` is prefix on
the character sequences. -/

/-- Embeds `os.path.basename`: the suffix after the last separator. -/
def basename (s : String) : String :=
  String.mk ((s.data.reverse.takeWhile (fun c => c ≠ '/')).reverse)

/-- Embeds `os.path.abspath(os.path.join(dir, name))` at component level, for a
`name` free of path separators. -/
def resolveJoin (dir : List String) (name : String) : List String :=
  if name = "" || name = "." then dir
  else if name = ".." then dir.dropLast
  else dir ++ [name]

/-- The character sequence of the path string of an absolute component
list (`[] ↦ "/"`, `[a, b] ↦ "/a/b"`). -/
def pathData : List String → List Char
  | [] => ['/']
  | [c] => '/' :: c.data
  | c :: rest => '/' :: c.data ++ pathData rest

/-- Embeds `LocalMusic._resolve_local_path`: take the base name of the request,
join it onto the music directory, and return the absolute path only when it
starts with the music directory plus a separator; otherwise `raise
ValueError` (`none`). -/
def resolve_local_path (musicDir : List String) (filename : String) : Option (List Char) :=
  let safe_name := basename filename
  let full_path := resolveJoin musicDir safe_name
  if (pathData musicDir ++ ['/']).isPrefixOf (pathData full_path) then
    some (pathData full_path)
  else none

/-! ### Sample fixtures used by concrete scenarios and witnesses -/

/-- A resolved remote track, as `music_cog.py` enqueues them. -/
def remoteSong : Song :=
  { title := "Demo Tune"
    source_url := "https://media.example/watch?v=1"
    stream_url := some "https://cdn.example/a1"
    requester := some "alice"
    ffmpeg_options := some
      { before_options := some "-reconnect 1 -reconnect_streamed 1 -reconnect_delay_max 5"
        options := some "-vn" } }

/-- A local track, as `local_cog.py` enqueues them: empty locator, the file
path as stream address. -/
def localSong : Song :=
  { title := "track.mp3"
    source_url := ""
    stream_url := some "/srv/bot/music/track.mp3"
    requester := some "bob"
    is_local := true
    ffmpeg_options := some { options := some "-vn -filter:a \"volume=0.15\"" } }

/-- A remote track whose locator the demo resolver cannot resolve. -/
def badSong : Song :=
  { title := "Gone"
    source_url := "https://media.example/watch?v=gone"
    requester := some "carol"
    ffmpeg_options := some { options := some "-vn" } }

/-- A demo environment: resolves only the locator of `remoteSong`; every channel
lookup succeeds. -/
def demoEnv : Env :=
  { resolver := fun u => if u = "https://media.example/watch?v=1" then some "https://cdn.example/a2" else none
    channelExists := fun _ => true }

/-- A guild state in the middle of playing `remoteSong`, announcements going
to channel 1. -/
def seekScenarioState : GuildState :=
  { queue := []
    voice_client := some ⟨true, true⟩
    current_song := some remoteSong
    playback_task := some ⟨7, false⟩
    announcement_channel_id := some 1 }

/-! ### Shared lemmas -/

/-- The parser returns the sentinel `-1` or a clamped non-negative total. -/
theorem parse_timestamp_neg_or_nonneg (ts : String) :
    parse_timestamp ts = -1 ∨ 0 ≤ parse_timestamp ts := by
  unfold parse_timestamp
  split
  · split
    · right; exact le_max_left _ _
    · left; rfl
  · split
    · right; exact le_max_left _ _
    · left; rfl
  · split
    · right; exact le_max_left _ _
    · left; rfl
  · left; rfl

/-- Non-negative results characterise the parseable inputs. -/
theorem parse_timestamp_nonneg_iff (ts : String) :
    0 ≤ parse_timestamp ts ↔ wellFormedTimestamp ts = true := by
  unfold parse_timestamp wellFormedTimestamp
  rcases h : splitChar ':' (pyStripChars ts.data) with _ | ⟨a, _ | ⟨b, _ | ⟨c, _ | ⟨d, r⟩⟩⟩⟩ <;>
    simp only
  · simp
  · cases ha : pyFloatTruncInt? a <;> simp [le_max_left]
  · cases ha : pyInt? a <;> cases hb : pyInt? b <;> simp [le_max_left]
  · cases ha : pyInt? a <;> cases hb : pyInt? b <;> cases hc : pyInt? c <;>
      simp [le_max_left]
  · simp

/-- C6: the position parser accepts plain seconds, `MM:SS` and `HH:MM:SS`
forms, converting each to a non-negative total of seconds (clamped at zero);
its result is negative exactly on unparseable input — always the sentinel
`-1` — and exactly then seek reports the invalid format and leaves the state
unchanged. -/
theorem parse_timestamp_spec (ts : String) (st : GuildState) (cur : Song) :
    (parse_timestamp ts = -1 ∨ 0 ≤ parse_timestamp ts) ∧
    (0 ≤ parse_timestamp ts ↔ wellFormedTimestamp ts = true) ∧
    (∀ a v, splitChar ':' (pyStripChars ts.data) = [a] →
      pyFloatTruncInt? a = some v → parse_timestamp ts = max 0 v) ∧
    (∀ m s mv sv, splitChar ':' (pyStripChars ts.data) = [m, s] →
      pyInt? m = some mv → pyInt? s = some sv →
      parse_timestamp ts = max 0 (mv * 60 + sv)) ∧
    (∀ h m s hv mv sv, splitChar ':' (pyStripChars ts.data) = [h, m, s] →
      pyInt? h = some hv → pyInt? m = some mv → pyInt? s = some sv →
      parse_timestamp ts = max 0 (hv * 3600 + mv * 60 + sv)) ∧
    (voiceConnected st = true → st.current_song = some cur →
      wellFormedTimestamp ts = false → seek st ts = (st, .invalidFormat)) := by
  refine ⟨parse_timestamp_neg_or_nonneg ts, parse_timestamp_nonneg_iff ts,
    ?_, ?_, ?_, ?_⟩
  · intro a v hsp hv
    unfold parse_timestamp
    rw [hsp]
    simp only []
    rw [hv]
  · intro m s mv sv hsp hm hs
    unfold parse_timestamp
    rw [hsp]
    simp only []
    rw [hm, hs]
  · intro h m s hv mv sv hsp hh hm hs
    unfold parse_timestamp
    rw [hsp]
    simp only []
    rw [hh, hm, hs]
  · intro hvc hcur hwf
    have hneg : parse_timestamp ts < 0 := by
      rcases parse_timestamp_neg_or_nonneg ts with h | h
      · rw [h]; decide
      · exact absurd ((parse_timestamp_nonneg_iff ts).1 h) (by simp [hwf])
    unfold seek
    simp [hvc, hcur, hneg]

/-- C6 witness: `"1:30"` parses to 90 seconds; an unparseable position makes
seek report the invalid format without touching the playing state.  The
further conjuncts pin the embedded `int(float(.))` to CPython behaviour: an
overflowing exponent raises through to `-1`, a value beyond 2^53 rounds to
binary64 before truncation, a near-one decimal rounds up to 1, and Arabic
decimal digits parse like ASCII ones. -/
theorem parse_timestamp_spec_witness :
    parse_timestamp "1:30" = 90 ∧
    seek seekScenarioState "nonsense" = (seekScenarioState, .invalidFormat) ∧
    parse_timestamp "1e400" = -1 ∧
    parse_timestamp "9007199254740993" = 9007199254740992 ∧
    parse_timestamp "0.9999999999999999999" = 1 ∧
    parse_timestamp "١:٣٠" = 90 := by
  refine ⟨?_, ?_, by decide, by decide, by decide, by decide⟩
  · have h := (parse_timestamp_spec "1:30" seekScenarioState remoteSong).2.2.2.1
      ['1'] ['3', '0'] 1 30 (by decide) (by decide) (by decide)
    simpa using h
  · exact (parse_timestamp_spec "nonsense" seekScenarioState remoteSong).2.2.2.2.2
      (by decide) rfl (by decide)

/-- C5: at most one playback loop task is ever live per guild state:
`start_playback` creates a fresh task and records the announce channel
exactly when no task exists or the previous one has finished, and a repeated
call while the created task runs changes nothing. -/
theorem start_playback_idempotent (st : GuildState) (c₁ c₂ f₁ f₂ : Nat) :
    (taskFree st = true →
      start_playback st c₁ f₁ =
        { st with announcement_channel_id := some c₁, playback_task := some ⟨f₁, false⟩ } ∧
      start_playback (start_playback st c₁ f₁) c₂ f₂ = start_playback st c₁ f₁) ∧
    (taskFree st = false → start_playback st c₁ f₁ = st) := by
  refine ⟨fun h => ⟨?_, ?_⟩, fun h => ?_⟩
  · simp [start_playback, h]
  · have e : start_playback st c₁ f₁ =
        { st with announcement_channel_id := some c₁, playback_task := some ⟨f₁, false⟩ } := by
      simp [start_playback, h]
    rw [e]
    simp [start_playback, taskFree]
  · simp [start_playback, h]

/-- C5 witness: starting twice on an idle state creates one task; the second
call is a no-op. -/
theorem start_playback_idempotent_witness :
    taskFree { } = true ∧
    start_playback (start_playback { } 5 1) 6 2 = start_playback { } 5 1 :=
  ⟨rfl, ((start_playback_idempotent { } 5 6 1 2).1 rfl).2⟩

/-- C4: when the queue is empty, the pop times out and the loop performs the
full stop: queue drained, loop task handle cleared, voice connection
released, current track cleared, prefetch task cleared — and a subsequent
`start_playback` (as enqueue performs) creates a fresh loop task. -/
theorem idle_timeout_full_stop (env : Env) (st : GuildState) (n chan fresh : Nat)
    (h : st.queue = []) :
    runLoop env st (n + 1) = ([], stop st, .stoppedTimeout) ∧
    (stop st).queue = [] ∧ (stop st).playback_task = none ∧
    (stop st).voice_client = none ∧ (stop st).current_song = none ∧
    (stop st).prefetch_task = none ∧
    start_playback (stop st) chan fresh =
      { stop st with announcement_channel_id := some chan,
                     playback_task := some ⟨fresh, false⟩ } := by
  refine ⟨?_, rfl, rfl, rfl, rfl, rfl, ?_⟩
  · simp [runLoop, h]
  · simp [start_playback, taskFree, stop]

/-- C4 witness: the timeout stop on a concrete idle state. -/
theorem idle_timeout_full_stop_witness :
    runLoop demoEnv { voice_client := some ⟨true, false⟩, playback_task := some ⟨3, false⟩ } 1 =
      ([], stop { voice_client := some ⟨true, false⟩, playback_task := some ⟨3, false⟩ },
       .stoppedTimeout) :=
  (idle_timeout_full_stop demoEnv _ 0 1 2 rfl).1

/-- C10: a popped track facing an absent or disconnected voice client makes
the loop return bare: the popped track stays recorded as current, the rest of
the queue is untouched, and neither the loop task handle nor the prefetch
task is cleared — none of the stop cleanup of the timeout path happens. -/
theorem voice_lost_no_cleanup (env : Env) (st : GuildState) (s : Song) (rest : List Song)
    (n : Nat) (hq : st.queue = s :: rest) (hv : voiceConnected st = false) :
    runLoop env st (n + 1) =
      ([], { st with queue := rest, current_song := some s }, .voiceLost) ∧
    ({ st with queue := rest, current_song := some s }).playback_task = st.playback_task ∧
    ({ st with queue := rest, current_song := some s }).prefetch_task = st.prefetch_task ∧
    ({ st with queue := rest, current_song := some s }).queue = rest := by
  refine ⟨?_, rfl, rfl, rfl⟩
  have hv1 : voiceConnected { st with queue := rest, current_song := some s } = false := by
    simpa [voiceConnected] using hv
  simp [runLoop, hq, hv1]

/-- C10 witness: a disconnected voice client on a two-track queue. -/
theorem voice_lost_no_cleanup_witness :
    runLoop demoEnv
        { queue := [remoteSong, localSong], voice_client := some ⟨false, false⟩,
          playback_task := some ⟨3, false⟩, prefetch_task := some ⟨4, false⟩ } 1 =
      ([], { queue := [localSong], voice_client := some ⟨false, false⟩,
             current_song := some remoteSong,
             playback_task := some ⟨3, false⟩, prefetch_task := some ⟨4, false⟩ },
       .voiceLost) :=
  (voice_lost_no_cleanup demoEnv
    { queue := [remoteSong, localSong], voice_client := some ⟨false, false⟩,
      playback_task := some ⟨3, false⟩, prefetch_task := some ⟨4, false⟩ }
    remoteSong [localSong] 0 rfl rfl).1

/-- C8 counterexample: the cleared-queue report is one fixed message — it is
identical for queues of two and of three tracks and contains no digit, so the
number of cleared tracks is not reported. -/
theorem clear_report_lacks_count :
    (clear { queue := [localSong, remoteSong] }).2 =
      (clear { queue := [localSong, remoteSong, badSong] }).2 ∧
    ((clear { queue := [localSong, remoteSong] }).2.data.all fun c => !c.isDigit) = true ∧
    (clear { queue := [localSong, remoteSong] }).2 ≠ "The queue is already empty." :=
  ⟨rfl, by decide, by decide⟩

/-- C8 (amended): `clear` drains every pending track while leaving the
current track, voice connection, loop task, prefetch task and announce
channel untouched, and reports a fixed cleared-confirmation message when the
queue was non-empty (without the count), or an already-empty message. -/
theorem clear_drains_queue_only (st : GuildState) :
    (clear st).1.queue = [] ∧
    (clear st).1.current_song = st.current_song ∧
    (clear st).1.voice_client = st.voice_client ∧
    (clear st).1.playback_task = st.playback_task ∧
    (clear st).1.prefetch_task = st.prefetch_task ∧
    (clear st).1.announcement_channel_id = st.announcement_channel_id ∧
    (clear st).2 = (if st.queue.isEmpty then "The queue is already empty."
                    else "**:wastebasket: Cleared the queue.**") := by
  by_cases h : st.queue.isEmpty <;> simp_all [clear]

/-- C7 counterexample: for a local track (origin needs no refresh) the seek
clone has its stream address nevertheless cleared. -/
theorem seek_clone_clears_local_stream :
    localSong.is_local = true ∧
    localSong.stream_url = some "/srv/bot/music/track.mp3" ∧
    (seekSongOf localSong 90).stream_url = none :=
  ⟨rfl, rfl, rfl⟩

/-- C7 (amended): the seek clone keeps the title, locator,
requester and origin flags, its encode options carry the `-ss` start offset
(with reconnect flags exactly for remote tracks) while preserving the
existing filter options (default `-vn`), and its stream address is always
cleared. -/
theorem seek_clone_fields (current : Song) (seconds : Int) :
    (seekSongOf current seconds).title = current.title ∧
    (seekSongOf current seconds).source_url = current.source_url ∧
    (seekSongOf current seconds).requester = current.requester ∧
    (seekSongOf current seconds).is_tts = current.is_tts ∧
    (seekSongOf current seconds).is_local = current.is_local ∧
    (seekSongOf current seconds).stream_url = none ∧
    (seekSongOf current seconds).ffmpeg_options = some
      { before_options := some (pyStrip ("-ss " ++ toString seconds ++ " " ++
          (if !current.is_local && !current.is_tts then
            "-reconnect 1 -reconnect_streamed 1 -reconnect_delay_max 5"
          else "")))
        options := some (match current.ffmpeg_options with
          | some o => o.options.getD "-vn"
          | none => "-vn") } ∧
    (seekSongOf remoteSong 90).ffmpeg_options = some
      { before_options := some "-ss 90 -reconnect 1 -reconnect_streamed 1 -reconnect_delay_max 5"
        options := some "-vn" } ∧
    (seekSongOf localSong 90).ffmpeg_options = some
      { before_options := some "-ss 90"
        options := some "-vn -filter:a \"volume=0.15\"" } :=
  ⟨rfl, rfl, rfl, rfl, rfl, rfl, rfl, by decide, by decide⟩

/-! ### Lemmas about path resolution -/

/-- The base name never contains a separator. -/
theorem basename_no_slash (s : String) : '/' ∉ (basename s).data := by
  intro hmem
  have h1 : '/' ∈ s.data.reverse.takeWhile (fun c => c ≠ '/') := by
    simpa [basename] using hmem
  have h2 := List.mem_takeWhile_imp h1
  simp at h2

/-- Taking the base name twice changes nothing. -/
theorem basename_idem (s : String) : basename (basename s) = basename s := by
  unfold basename
  simp [List.reverse_reverse, List.takeWhile_idem]

/-- A longer list is never a prefix of a shorter one. -/
theorem not_isPrefixOf_of_length_lt (l₁ l₂ : List Char) (h : l₂.length < l₁.length) :
    l₁.isPrefixOf l₂ = false := by
  cases hb : l₁.isPrefixOf l₂
  · rfl
  · exfalso
    have := (List.isPrefixOf_iff_prefix.mp hb).length_le
    omega

/-- Unfolding `pathData` on a list known to continue. -/
theorem pathData_cons (c : String) (xs : List String) (h : xs ≠ []) :
    pathData (c :: xs) = '/' :: c.data ++ pathData xs := by
  cases xs with
  | nil => exact absurd rfl h
  | cons d rest => rfl

/-- Appending one component appends one separator and the component. -/
theorem pathData_append_singleton (dir : List String) (name : String) (h : dir ≠ []) :
    pathData (dir ++ [name]) = pathData dir ++ '/' :: name.data := by
  induction dir with
  | nil => exact absurd rfl h
  | cons c rest ih =>
    cases rest with
    | nil => rfl
    | cons d rest2 =>
      rw [List.cons_append, pathData_cons c ((d :: rest2) ++ [name]) (by simp),
        pathData_cons c (d :: rest2) (by simp), ih (by simp)]
      simp

/-- Dropping the last component never lengthens the rendered path. -/
theorem pathData_dropLast_length (dir : List String) :
    (pathData dir.dropLast).length ≤ (pathData dir).length := by
  induction dir with
  | nil => simp
  | cons c rest ih =>
    cases rest with
    | nil => simp [pathData]
    | cons d rest2 =>
      have hdl : (c :: d :: rest2).dropLast = c :: (d :: rest2).dropLast := rfl
      rw [hdl, pathData_cons c (d :: rest2) (by simp)]
      cases h : (d :: rest2).dropLast with
      | nil =>
        simp [pathData]
      | cons e tail =>
        rw [h] at ih
        rw [pathData_cons c (e :: tail) (by simp)]
        simp only [List.length_append, List.length_cons]
        omega

/-- Closed form of `_resolve_local_path`: the degenerate base names fail the
containment check, every other base name lands one component below the music
directory. -/
theorem resolve_local_path_eq (musicDir : List String) (filename : String)
    (hne : musicDir ≠ []) :
    resolve_local_path musicDir filename =
      (if basename filename = "" ∨ basename filename = "." ∨ basename filename = ".."
       then none
       else some (pathData (musicDir ++ [basename filename]))) := by
  by_cases h1 : basename filename = "" ∨ basename filename = "."
  · have hj : resolveJoin musicDir (basename filename) = musicDir := by
      unfold resolveJoin
      rcases h1 with h | h <;> simp [h]
    have hpre : ((pathData musicDir ++ ['/']).isPrefixOf (pathData musicDir)) = false := by
      apply not_isPrefixOf_of_length_lt
      simp
    simp only [resolve_local_path]
    rw [hj, hpre, if_pos (h1.imp id Or.inl)]
    simp
  · rcases not_or.mp h1 with ⟨ha, hb⟩
    by_cases h2 : basename filename = ".."
    · have hj : resolveJoin musicDir (basename filename) = musicDir.dropLast := by
        unfold resolveJoin
        simp [ha, hb, h2]
      have hpre : ((pathData musicDir ++ ['/']).isPrefixOf
          (pathData musicDir.dropLast)) = false := by
        apply not_isPrefixOf_of_length_lt
        have hdl := pathData_dropLast_length musicDir
        simp only [List.length_append, List.length_cons, List.length_nil]
        omega
      simp only [resolve_local_path]
      rw [hj, hpre, if_pos (Or.inr (Or.inr h2))]
      simp
    · have hj : resolveJoin musicDir (basename filename) =
          musicDir ++ [basename filename] := by
        unfold resolveJoin
        simp [ha, hb, h2]
      have hpre : ((pathData musicDir ++ ['/']).isPrefixOf
          (pathData (musicDir ++ [basename filename]))) = true := by
        rw [pathData_append_singleton musicDir (basename filename) hne]
        have hassoc : pathData musicDir ++ '/' :: (basename filename).data =
            (pathData musicDir ++ ['/']) ++ (basename filename).data := by simp
        rw [hassoc]
        exact List.isPrefixOf_iff_prefix.mpr (List.prefix_append _ _)
      simp only [resolve_local_path]
      have hnotdeg : ¬(basename filename = "" ∨ basename filename = "." ∨
          basename filename = "..") :=
        fun hor => hor.elim ha (fun hor2 => hor2.elim hb h2)
      rw [hj, hpre, if_neg hnotdeg]
      simp

/-- C9: local path resolution depends only on the base name of the request
and either returns a path strictly inside the music directory — exactly one
real, separator-free component below it — or raises `ValueError`; the
degenerate base names `""`, `"."` and `".."` always raise, so no input with
directory components can resolve outside the music directory. -/
theorem resolve_local_path_safe (musicDir : List String) (filename : String)
    (hne : musicDir ≠ []) :
    resolve_local_path musicDir filename = resolve_local_path musicDir (basename filename) ∧
    (∀ p, resolve_local_path musicDir filename = some p →
      p = pathData (musicDir ++ [basename filename]) ∧
      basename filename ≠ "" ∧ basename filename ≠ "." ∧ basename filename ≠ ".." ∧
      '/' ∉ (basename filename).data) ∧
    ((basename filename = "" ∨ basename filename = "." ∨ basename filename = "..") →
      resolve_local_path musicDir filename = none) := by
  refine ⟨?_, ?_, ?_⟩
  · rw [resolve_local_path_eq musicDir filename hne,
      resolve_local_path_eq musicDir (basename filename) hne, basename_idem]
  · intro p hp
    rw [resolve_local_path_eq musicDir filename hne] at hp
    by_cases hdeg : basename filename = "" ∨ basename filename = "." ∨ basename filename = ".."
    · rw [if_pos hdeg] at hp; exact absurd hp (by simp)
    · rw [if_neg hdeg] at hp
      push_neg at hdeg
      exact ⟨(Option.some_inj.mp hp).symm, hdeg.1, hdeg.2.1, hdeg.2.2,
        basename_no_slash filename⟩
  · intro hdeg
    rw [resolve_local_path_eq musicDir filename hne, if_pos hdeg]

/-- C9 witness: a traversal attempt resolves as its base name alone, inside
the music directory, and a bare `".."` raises. -/
theorem resolve_local_path_safe_witness :
    resolve_local_path ["srv", "music"] "../../etc/passwd" =
      resolve_local_path ["srv", "music"] "passwd" ∧
    resolve_local_path ["srv", "music"] ".." = none := by
  constructor
  · have h := (resolve_local_path_safe ["srv", "music"] "../../etc/passwd" (by simp)).1
    have hb : basename "../../etc/passwd" = "passwd" := by decide
    rw [hb] at h
    exact h
  · exact (resolve_local_path_safe ["srv", "music"] ".." (by simp)).2.2
      (Or.inr (Or.inr (by decide)))

/-! ### Lemmas about the playback loop -/

/-- Idle-timeout iteration. -/
theorem runLoop_queue_nil (env : Env) (st : GuildState) (n : Nat) (h : st.queue = []) :
    runLoop env st (n + 1) = ([], stop st, .stoppedTimeout) := by
  simp [runLoop, h]

/-- Frame of `_start_prefetch_next`: it touches only the prefetch-task handle. -/
theorem startPrefetchNext_frame (st : GuildState) (n : Nat) :
    (startPrefetchNext st n).queue = st.queue ∧
    (startPrefetchNext st n).voice_client = st.voice_client ∧
    (startPrefetchNext st n).announcement_channel_id = st.announcement_channel_id ∧
    (startPrefetchNext st n).current_song = st.current_song ∧
    (startPrefetchNext st n).suppress_next_announcement = st.suppress_next_announcement := by
  unfold startPrefetchNext
  split
  · exact ⟨rfl, rfl, rfl, rfl, rfl⟩
  · cases st.queue.head? with
    | none => exact ⟨rfl, rfl, rfl, rfl, rfl⟩
    | some next =>
      simp only
      split
      · exact ⟨rfl, rfl, rfl, rfl, rfl⟩
      · exact ⟨rfl, rfl, rfl, rfl, rfl⟩

/-- Resolution keeps the identity of the popped song. -/
theorem resolveStream_keeps (env : Env) (s s' : Song) (u : String)
    (h : resolveStream env s = some (s', u)) :
    s'.title = s.title ∧ s'.display = s.display ∧ s'.ffmpeg_options = s.ffmpeg_options := by
  unfold resolveStream at h
  split at h
  · cases hr : env.resolver s.source_url
    · rw [hr] at h; exact absurd h (by simp)
    · rw [hr] at h
      simp only [Option.some.injEq, Prod.mk.injEq] at h
      rw [← h.1]
      exact ⟨rfl, by simp [Song.display], rfl⟩
  · cases hs : s.stream_url
    · rw [hs] at h; exact absurd h (by simp)
    · rw [hs] at h
      simp only [Option.some.injEq, Prod.mk.injEq] at h
      rw [← h.1]
      exact ⟨rfl, rfl, rfl⟩

/-- One iteration whose resolution fails: skip announcement (when the
announce channel is usable), finish callback, continue. -/
theorem runLoop_cons_fail (env : Env) (st : GuildState) (s : Song) (rest : List Song)
    (n : Nat) (hq : st.queue = s :: rest) (hv : voiceConnected st = true)
    (hres : resolveStream env s = none) :
    runLoop env st (n + 1) =
      ((if announceOk env st then [Ev.skipError s.title] else []) ++
        (runLoop env { st with queue := rest, current_song := none } n).1,
       (runLoop env { st with queue := rest, current_song := none } n).2) := by
  have hv1 : voiceConnected { st with queue := rest, current_song := some s } = true := by
    simpa [voiceConnected] using hv
  have hA : announceOk env { st with queue := rest, current_song := some s } =
      announceOk env st := by
    simp [announceOk]
  simp [runLoop, hq, hv1, hres, hA, songFinishedCallback]

/-- One iteration whose resolution succeeds: play, announce (when the
announce channel is usable), prefetch, await the finish callback,
continue. -/
theorem runLoop_cons_ok (env : Env) (st : GuildState) (s s' : Song) (u : String)
    (rest : List Song) (n : Nat)
    (hq : st.queue = s :: rest) (hv : voiceConnected st = true)
    (hres : resolveStream env s = some (s', u)) :
    runLoop env st (n + 1) =
      (Ev.played s'.title u s'.ffmpeg_options ::
        (if announceOk env st then [Ev.nowPlaying s'.display] else []) ++
        (runLoop env (songFinishedCallback
          (startPrefetchNext { st with queue := rest, current_song := some s' } n)) n).1,
       (runLoop env (songFinishedCallback
          (startPrefetchNext { st with queue := rest, current_song := some s' } n)) n).2) := by
  have hv1 : voiceConnected { st with queue := rest, current_song := some s } = true := by
    simpa [voiceConnected] using hv
  have hA : announceOk env { st with queue := rest, current_song := some s' } =
      announceOk env st := by
    simp [announceOk]
  simp [runLoop, hq, hv1, hres, hA]

/-- A sequence of enqueues appends in order and touches no other field used
by the loop. -/
theorem putAll_fields (songs : List Song) : ∀ st : GuildState,
    (putAll st songs).queue = st.queue ++ songs ∧
    (putAll st songs).voice_client = st.voice_client := by
  induction songs with
  | nil => intro st; simp [putAll]
  | cons s rest ih =>
    intro st
    have h := ih (putSong st s)
    simp only [putAll, List.foldl_cons] at h ⊢
    refine ⟨?_, ?_⟩
    · rw [h.1]; simp [putSong]
    · rw [h.2]; rfl

/-- The loop consumes a fully-playable queue in FIFO order and then times
out. -/
theorem runLoop_fifo (env : Env) (songs : List Song) : ∀ st : GuildState,
    st.queue = songs → voiceConnected st = true →
    (∀ s ∈ songs, playable env s = true) →
    playedTitles (runLoop env st (songs.length + 1)).1 = songs.map Song.title ∧
    (runLoop env st (songs.length + 1)).2.2 = LoopExit.stoppedTimeout := by
  induction songs with
  | nil =>
    intro st hq _ _
    rw [List.length_nil, runLoop_queue_nil env st 0 hq]
    exact ⟨rfl, rfl⟩
  | cons s rest ih =>
    intro st hq hv hp
    have hps : playable env s = true := hp s (List.mem_cons_self s rest)
    obtain ⟨⟨s', u⟩, hres⟩ : ∃ r, resolveStream env s = some r := by
      unfold playable at hps
      cases hr : resolveStream env s
      · rw [hr] at hps; simp at hps
      · exact ⟨_, rfl⟩
    have heq := runLoop_cons_ok env st s s' u rest (rest.length + 1) hq hv hres
    have hstep : (s :: rest).length + 1 = rest.length + 1 + 1 := by simp
    rw [hstep, heq]
    set stMid : GuildState :=
      startPrefetchNext { st with queue := rest, current_song := some s' }
        (rest.length + 1) with hmid
    have hframe := startPrefetchNext_frame
      { st with queue := rest, current_song := some s' } (rest.length + 1)
    have hqN : (songFinishedCallback stMid).queue = rest := by
      simp only [songFinishedCallback, ← hmid]
      exact hframe.1
    have hvN : voiceConnected (songFinishedCallback stMid) = true := by
      have hvc : (songFinishedCallback stMid).voice_client = st.voice_client := by
        simp only [songFinishedCallback, ← hmid]
        exact hframe.2.1
      unfold voiceConnected at hv ⊢
      rw [hvc]
      exact hv
    obtain ⟨ht, hexit⟩ := ih (songFinishedCallback stMid) hqN hvN
      (fun x hx => hp x (List.mem_cons_of_mem s hx))
    have htitle := (resolveStream_keeps env s s' u hres).1
    constructor
    · cases hA : announceOk env st <;>
        simp [playedTitles, List.filterMap_append, hA] at ht ⊢ <;>
        simp [ht, htitle]
    · simpa using hexit

/-- C1: enqueue sequences on an idle state play back in FIFO insertion
order, and the seek-inserted clone goes to the *front* of the queue, making
it the very next track the loop consumes after the forced stop of the
current one. -/
theorem fifo_playback_with_seek_front (env : Env) (st stp : GuildState)
    (songs : List Song) (current front : Song) (rest : List Song) (pos : String)
    (n : Nat) :
    (st.queue = [] → voiceConnected st = true →
      (∀ s ∈ songs, playable env s = true) →
      playedTitles (runLoop env (putAll st songs) (songs.length + 1)).1 =
        songs.map Song.title) ∧
    (voiceConnected stp = true → stp.current_song = some current →
      voicePlaying stp = true → 0 ≤ parse_timestamp pos →
      (seek stp pos).1.queue = seekSongOf current (parse_timestamp pos) :: stp.queue) ∧
    (stp.queue = front :: rest → voiceConnected stp = true →
      playable env front = true →
      (playedTitles (runLoop env stp (n + 1)).1).head? = some front.title) := by
  refine ⟨?_, ?_, ?_⟩
  · intro hq hv hp
    have hput := putAll_fields songs st
    have hq1 : (putAll st songs).queue = songs := by rw [hput.1, hq]; rfl
    have hv1 : voiceConnected (putAll st songs) = true := by
      unfold voiceConnected at hv ⊢
      rw [hput.2]
      exact hv
    exact (runLoop_fifo env songs (putAll st songs) hq1 hv1 hp).1
  · intro hv hcur hplay hpos
    have hneg : ¬ parse_timestamp pos < 0 := not_lt.mpr hpos
    unfold seek
    simp [hv, hcur, hneg, hplay]
  · intro hq hv hpf
    obtain ⟨⟨f', u⟩, hres⟩ : ∃ r, resolveStream env front = some r := by
      unfold playable at hpf
      cases hr : resolveStream env front
      · rw [hr] at hpf; simp at hpf
      · exact ⟨_, rfl⟩
    rw [runLoop_cons_ok env stp front f' u rest n hq hv hres]
    have htitle := (resolveStream_keeps env front f' u hres).1
    cases hA : announceOk env stp <;> simp [playedTitles, hA, htitle]

/-- C1 witness: two enqueued tracks play in order; a seek while playing puts
the clone at the front of the (empty) queue. -/
theorem fifo_playback_with_seek_front_witness :
    playedTitles (runLoop demoEnv
        (putAll { voice_client := some ⟨true, false⟩ } [remoteSong, localSong]) 3).1 =
      [remoteSong.title, localSong.title] ∧
    (seek seekScenarioState "1:30").1.queue = [seekSongOf remoteSong 90] := by
  have h := fifo_playback_with_seek_front demoEnv { voice_client := some ⟨true, false⟩ }
    seekScenarioState [remoteSong, localSong] remoteSong remoteSong [] "1:30" 0
  constructor
  · have h1 := h.1 rfl rfl (by decide)
    simpa using h1
  · have h2 := h.2.1 rfl rfl rfl (by decide)
    have hp : parse_timestamp "1:30" = 90 := by decide
    rw [hp] at h2
    simpa [seekScenarioState] using h2

/-- C2: a failing resolution announces the skip on the usable announce
channel, never retries the track, and the loop moves straight on: a queue of
a bad locator followed by a resolved (local) track yields exactly the skip
message, the playback of the good track, and its now-playing announcement —
the only track played is the good one. -/
theorem resolution_failure_skips_and_continues (env : Env) (st : GuildState)
    (bad good : Song) (c : Nat) (u : String)
    (hq : st.queue = [bad, good]) (hv : voiceConnected st = true)
    (hch : st.announcement_channel_id = some c) (hc0 : c ≠ 0)
    (hex : env.channelExists c = true)
    (hbad : streamMissing bad.stream_url = true)
    (hfail : env.resolver bad.source_url = none)
    (hgood : good.stream_url = some u) (hu : u ≠ "") :
    (runLoop env st 3).1 =
      [Ev.skipError bad.title, Ev.played good.title u good.ffmpeg_options,
       Ev.nowPlaying good.display] ∧
    playedTitles (runLoop env st 3).1 = [good.title] ∧
    (runLoop env st 3).2.2 = LoopExit.stoppedTimeout := by
  have hres1 : resolveStream env bad = none := by
    simp [resolveStream, hbad, hfail]
  have hres2 : resolveStream env good = some (good, u) := by
    simp [resolveStream, streamMissing, hgood, hu]
  have hann : announceOk env st = true := by
    simp [announceOk, hch, hc0, hex]
  have h1 := runLoop_cons_fail env st bad [good] 2 hq hv hres1
  set st2 : GuildState := { st with queue := [good], current_song := none } with hst2
  have hv2 : voiceConnected st2 = true := by
    simpa [hst2, voiceConnected] using hv
  have hann2 : announceOk env st2 = true := by
    simp [hst2, announceOk, hch, hc0, hex]
  have h2 := runLoop_cons_ok env st2 good good u [] 1 rfl hv2 hres2
  set st3 : GuildState :=
    songFinishedCallback (startPrefetchNext { st2 with queue := [], current_song := some good } 1)
    with hst3
  have hq3 : st3.queue = [] := by
    have := (startPrefetchNext_frame { st2 with queue := [], current_song := some good } 1).1
    simp only [hst3, songFinishedCallback]
    exact this
  have h3 := runLoop_queue_nil env st3 0 hq3
  rw [show (3 : Nat) = 2 + 1 from rfl, h1, hann]
  rw [show (2 : Nat) = 1 + 1 from rfl, h2, hann2]
  rw [show (1 : Nat) = 0 + 1 from rfl] at h3 ⊢
  rw [h3]
  simp [playedTitles]

/-- C2 witness: the concrete queue [bad locator, local track]. -/
theorem resolution_failure_skips_and_continues_witness :
    (runLoop demoEnv
        { queue := [badSong, localSong], voice_client := some ⟨true, false⟩,
          announcement_channel_id := some 1 } 3).1 =
      [Ev.skipError badSong.title,
       Ev.played localSong.title "/srv/bot/music/track.mp3" localSong.ffmpeg_options,
       Ev.nowPlaying localSong.display] :=
  (resolution_failure_skips_and_continues demoEnv
    { queue := [badSong, localSong], voice_client := some ⟨true, false⟩,
      announcement_channel_id := some 1 }
    badSong localSong 1 "/srv/bot/music/track.mp3"
    rfl rfl rfl (by decide) rfl rfl (by decide) rfl (by decide)).1

/-- C3 evidence: `seek` during playback sets the one-shot
`suppress_next_announcement` flag, but the playback loop never reads it — the
restarted clone is announced again as now-playing and the flag survives the
iteration still set. -/
theorem seek_restart_emits_duplicate_announcement :
    (seek seekScenarioState "1:30").2 = SeekOut.seeking 90 ∧
    (seek seekScenarioState "1:30").1.suppress_next_announcement = true ∧
    (runLoop demoEnv (songFinishedCallback (seek seekScenarioState "1:30").1) 1).1 =
      [Ev.played remoteSong.title "https://cdn.example/a2"
        (seekSongOf remoteSong 90).ffmpeg_options,
       Ev.nowPlaying (seekSongOf remoteSong 90).display] ∧
    (runLoop demoEnv (songFinishedCallback (seek seekScenarioState "1:30").1) 1
      ).2.1.suppress_next_announcement = true :=
  ⟨by decide, by decide, by decide, by decide⟩

end MusicBot
